import Mathlib

/-!
Verification of the extractable computational core of the `hyvolex_paradigm`
repository: the pairwise magnetic-field interaction update
(`src/systems/magnetic.rs`, `src/components/magnetic_field.rs`) and the
procedural sphere/shape mesh generation (`src/systems/generation.rs`,
`src/systems/mesh_generator.rs`, `src/components/shapes.rs`,
`src/components/node.rs`).

Modelling conventions:
* `f32` values are embedded as elements of an abstract `LinearOrderedField α`,
  instantiated at `ℝ` in the theorems; float literals such as `0.95` and `0.1`
  are read as the rationals `95/100` and `1/10`.
* The transcendental operations the source calls (`sqrt`, `cos`, `sin`) and
  the constant `TAU` are passed explicitly in a `RealOps` record so that the
  embedded functions stay computable; theorems instantiate them with
  `Real.sqrt`, `Real.cos`, `Real.sin` and `2 * Real.pi`.
* Error messages carried by the Rust error enums are display-only strings
  (some produced with `format!`); they are elided, keeping only the
  constructor structure of `ComponentError` / `Error`.
* `u32` loop indices in the sphere tessellation are embedded as `ℕ`; for the
  tessellation parameters in use (16 x 16) every computed index stays far
  below `2^32`, so wrap-around never triggers and is omitted.
-/

namespace Hyvolex

/-! ### Error model, from `src/err.rs` (payload strings elided) -/

inductive ComponentError where
  | NotFound
  | InitFailed
  | ValidationFailed
  | UpdateFailed
  | StateError
  | InvalidState
deriving DecidableEq, Repr

inductive AppError where
  | Component (e : ComponentError)
  | Resource
  | System
  | Io
  | Custom
deriving DecidableEq, Repr

/-! ### 3D vectors, embedding `bevy::math::Vec3` as used by the source -/

structure Vec3 (α : Type) where
  x : α
  y : α
  z : α
deriving DecidableEq, Repr

variable {α : Type} [LinearOrderedField α]

def Vec3.add (a b : Vec3 α) : Vec3 α := ⟨a.x + b.x, a.y + b.y, a.z + b.z⟩

def Vec3.sub (a b : Vec3 α) : Vec3 α := ⟨a.x - b.x, a.y - b.y, a.z - b.z⟩

def Vec3.smul (c : α) (v : Vec3 α) : Vec3 α := ⟨c * v.x, c * v.y, c * v.z⟩

def Vec3.dot (a b : Vec3 α) : α := a.x * b.x + a.y * b.y + a.z * b.z

def Vec3.zero : Vec3 α := ⟨0, 0, 0⟩

instance : Add (Vec3 α) := ⟨Vec3.add⟩

instance : Sub (Vec3 α) := ⟨Vec3.sub⟩

/-- The transcendental operations and the `TAU` constant used by
`update_magnetic_fields`; theorems instantiate them with the real
`sqrt`, `cos`, `sin` and `2 * pi`. -/
structure RealOps (α : Type) where
  sqrt : α → α
  cos : α → α
  sin : α → α
  tau : α

/-! ### `src/components/magnetic_field.rs` -/

inductive Polarity where
  | North
  | South
deriving DecidableEq, Repr

/-- The `MagneticField` component (`magnetic_field.rs`, lines 5-12). -/
structure MagneticField (α : Type) where
  strength : α
  polarity : Polarity
  orientation : α
  interaction_radius : α
  particle_emission_rate : α
deriving DecidableEq, Repr

/-- Embedding of `MagneticField::calculate_base_interaction` (`magnetic_field.rs`,
lines 34-46): error when either strength is non-positive, otherwise the
product of strengths, negated (repulsion) when polarities coincide. -/
def calculate_base_interaction (self other : MagneticField α) : Except AppError α :=
  if self.strength ≤ 0 ∨ other.strength ≤ 0 then
    Except.error (AppError.Component ComponentError.InvalidState)
  else if self.polarity = other.polarity then
    Except.ok (-(self.strength * other.strength))
  else
    Except.ok (self.strength * other.strength)

/-! ### `src/systems/magnetic.rs`, `update_magnetic_fields` (lines 189-262)

A `Body` bundles what the query of the system yields per entity: the
`Entity` id, the translation of the `Transform` and the `MagneticField`
component. The system
first collects `field_data`, a snapshot of all `(entity, translation, field)`
triples, then iterates the query mutably, updating each body in place. -/

structure Body (α : Type) where
  entity : ℕ
  translation : Vec3 α
  field : MagneticField α
deriving DecidableEq, Repr

/-- The pre-loop orientation advance (`magnetic.rs`, lines 207-212):
`orientation += strength * dt`, then a single conditional `TAU` subtraction. -/
def advancedBody (tau dt : α) (b : Body α) : Body α :=
  let o := b.field.orientation + b.field.strength * dt
  let o := if o > tau then o - tau else o
  { b with field := { b.field with orientation := o } }

/-- One iteration of the inner force loop (`magnetic.rs`, lines 220-251),
accumulating `(total_force, orientation_influence)`. `self` is the body being
updated, with its orientation already advanced; `other` is drawn from the
`field_data` snapshot. -/
def accumulatePair (ops : RealOps α) (self : Body α) (acc : Vec3 α × α)
    (other : Body α) : Vec3 α × α :=
  if self.entity = other.entity then acc
  else
    let direction := other.translation - self.translation
    let distance := ops.sqrt (Vec3.dot direction direction)
    if distance > self.field.interaction_radius + other.field.interaction_radius then acc
    else
      match calculate_base_interaction self.field other.field with
      | Except.error _ => acc
      | Except.ok force_magnitude =>
        let normalized := Vec3.smul (1 / distance) direction
        let force := Vec3.smul (force_magnitude / (distance * distance + 1)) normalized
        let field_direction : Vec3 α :=
          ⟨ops.cos self.field.orientation, 0, ops.sin self.field.orientation⟩
        let alignment := Vec3.dot field_direction normalized
        (acc.1 + force, acc.2 + alignment * force_magnitude * (1 / 10))

/-- The full inner loop: fold `accumulatePair` over the `field_data`
snapshot, starting from `(Vec3::ZERO, 0.0)`. -/
def forceAndInfluence (ops : RealOps α) (fieldData : List (Body α))
    (self : Body α) : Vec3 α × α :=
  fieldData.foldl (accumulatePair ops self) (Vec3.zero, 0)

/-- The per-body update (`magnetic.rs`, lines 206-260): advance the
orientation, then, when the `MagneticEffects` resource is present, apply the
accumulated force (`translation += total_force * dt * strength`) and the
damped orientation influence
(`orientation += influence * dt; orientation *= 0.95`). -/
def stepBody (ops : RealOps α) (effectsPresent : Bool) (dt : α)
    (fieldData : List (Body α)) (b : Body α) : Body α :=
  let b1 := advancedBody ops.tau dt b
  if effectsPresent then
    let acc := forceAndInfluence ops fieldData b1
    let movement := Vec3.smul b1.field.strength (Vec3.smul dt acc.1)
    { b1 with
      translation := b1.translation + movement,
      field := { b1.field with
        orientation := (b1.field.orientation + acc.2 * dt) * (95 / 100) } }
  else b1

/-- The in-place mutation loop, generalized over the order in which bodies
are visited: `order` lists positions into the store; visiting position `i`
reads the body currently stored there and overwrites it with its stepped
value. The snapshot `bodies` passed to `stepBody` is what the store held
before any mutation, exactly as `field_data` is collected up front in the
source. Visiting position `i` of the store reads the body currently there
and overwrites it with its stepped value (`visit`). -/
def visit {β : Type} (f : β → β) (cur : List β) (i : ℕ) : List β :=
  match cur[i]? with
  | some b => cur.set i (f b)
  | none => cur

def updateInOrder (ops : RealOps α) (effectsPresent : Bool) (dt : α)
    (bodies : List (Body α)) (order : List ℕ) : List (Body α) :=
  order.foldl (visit (stepBody ops effectsPresent dt bodies)) bodies

/-- Embedding of `update_magnetic_fields` (`magnetic.rs`, lines 189-262): visit the bodies
in store order, mutating in place, with forces computed from the
`field_data` snapshot. -/
def update_magnetic_fields (ops : RealOps α) (effectsPresent : Bool) (dt : α)
    (bodies : List (Body α)) : List (Body α) :=
  updateInOrder ops effectsPresent dt bodies (List.range bodies.length)

/-- The two-phase reading of the same tick: compute the stepped value of
every body from the start-of-tick snapshot (read phase), then write all out
(write phase). As a pure function this is a single `map` over the snapshot. -/
def updateTwoPhase (ops : RealOps α) (effectsPresent : Bool) (dt : α)
    (bodies : List (Body α)) : List (Body α) :=
  bodies.map (stepBody ops effectsPresent dt bodies)

/-- The pair `(self, other)` passes every guard of the inner force loop and
reaches the `direction.normalize()` call: the entities differ, the distance
filter does not skip it, and `calculate_base_interaction` succeeds. (None of
the guards reads the orientation, so the pre-loop orientation advance is
irrelevant here.) -/
def reachesNormalize (ops : RealOps α) (self other : Body α) : Prop :=
  self.entity ≠ other.entity ∧
  ¬ (ops.sqrt (Vec3.dot (other.translation - self.translation)
        (other.translation - self.translation)) >
      self.field.interaction_radius + other.field.interaction_radius) ∧
  ∃ m, calculate_base_interaction self.field other.field = Except.ok m

/-! ### `src/systems/generation.rs`, sphere tessellation (lines 94-166) -/

/-- The inner `for segment in 0..=segments` loop of
`generate_sphere_vertices`, at a fixed latitude `phi`. -/
def sphereRingVertices (sin cos : α → α) (pi radius : α) (segments : ℕ)
    (phi : α) : List (Vec3 α) :=
  (List.range (segments + 1)).map (fun (segment : ℕ) =>
    let theta : α := 2 * pi * (segment : α) / (segments : α)
    ⟨radius * sin phi * cos theta,
     radius * cos phi,
     radius * sin phi * sin theta⟩)

/-- Embedding of `generate_sphere_vertices` (lines 114-131): a lat/long grid of
`(rings+1) * (segments+1)` points, `phi` stepping over `[0, pi]` and `theta`
over `[0, 2*pi]`. -/
def generate_sphere_vertices (sin cos : α → α) (pi : α) (radius : α)
    (segments rings : ℕ) : List (Vec3 α) :=
  (List.range (rings + 1)).flatMap (fun (ring : ℕ) =>
    sphereRingVertices sin cos pi radius segments (pi * (ring : α) / (rings : α)))

/-- Embedding of `generate_sphere_normals` (lines 133-144): each vertex divided
componentwise by its Euclidean length, or `(0, 1, 0)` when the length is not
positive. -/
def generate_sphere_normals (sqrt : α → α) (vertices : List (Vec3 α)) :
    List (Vec3 α) :=
  vertices.map (fun v =>
    let length := sqrt (v.x * v.x + v.y * v.y + v.z * v.z)
    if length > 0 then ⟨v.x / length, v.y / length, v.z / length⟩
    else ⟨0, 1, 0⟩)

/-- The inner `for segment in 0..segments` loop of
`generate_sphere_indices`, at a fixed `ring`. -/
def sphereRingIndices (segments ring : ℕ) : List ℕ :=
  (List.range segments).flatMap (fun segment =>
    let current := ring * (segments + 1) + segment
    let next := current + segments + 1
    [current, next, current + 1, current + 1, next, next + 1])

/-- Embedding of `generate_sphere_indices` (lines 146-166): two triangles per quad of
adjacent rings. -/
def generate_sphere_indices (segments rings : ℕ) : List ℕ :=
  (List.range rings).flatMap (sphereRingIndices segments)

/-- Embedding of `create_node_mesh` (`generation.rs`, lines 94-112): reject a non-positive
radius with a `ValidationFailed` component error before tessellating,
otherwise produce the vertex, normal and index buffers of a 16 x 16 sphere.
(The construction of the engine-side `Mesh` object holding the three buffers
is elided.) -/
def create_node_mesh_buffers (sin cos : α → α) (pi : α) (sqrt : α → α)
    (radius : α) : Except AppError (List (Vec3 α) × List (Vec3 α) × List ℕ) :=
  if radius ≤ 0 then
    Except.error (AppError.Component ComponentError.ValidationFailed)
  else
    let vertices := generate_sphere_vertices sin cos pi radius 16 16
    Except.ok (vertices, generate_sphere_normals sqrt vertices,
      generate_sphere_indices 16 16)

/-! ### `src/components/node.rs` and `src/components/shapes.rs` -/

inductive ShapeType where
  | Alpha
  | Beta
  | Gamma
deriving DecidableEq, Repr

/-- Embedding of `ShapeType::dimensions` (`node.rs`, lines 21-27): `(radius, length)`. -/
def ShapeType.dimensions : ShapeType → α × α
  | ShapeType.Alpha => (2 / 10, 6 / 10)
  | ShapeType.Beta => (3 / 10, 8 / 10)
  | ShapeType.Gamma => (4 / 10, 1)

/-- The shape records of `shapes.rs` (lines 21-65). The Rust `Default` derive
fills every numeric field with zero, which is written out wherever
`..Default::default()` appears in the source. The Rust field `stacks` is
spelled `stacks'` here because `stacks` is a reserved token in the ambient
library. -/
structure Box3d (α : Type) where
  width : α
  height : α
  depth : α
deriving DecidableEq, Repr

structure Sphere3d (α : Type) where
  radius : α
  sectors : ℕ
  stacks' : ℕ
deriving DecidableEq, Repr

structure Capsule3d (α : Type) where
  radius : α
  height : α
  rings : ℕ
  latitudes : ℕ
  longitudes : ℕ
deriving DecidableEq, Repr

structure Cylinder3d (α : Type) where
  radius : α
  height : α
  resolution : ℕ
  segments : ℕ
deriving DecidableEq, Repr

structure Cone3d (α : Type) where
  radius : α
  height : α
  resolution : ℕ
deriving DecidableEq, Repr

structure Torus3d (α : Type) where
  radius : α
  ring_radius : α
  rings : ℕ
  sectors : ℕ
deriving DecidableEq, Repr

inductive Shape (α : Type) where
  | Box (b : Box3d α)
  | Sphere (s : Sphere3d α)
  | Capsule (c : Capsule3d α)
  | Cylinder (c : Cylinder3d α)
  | Cone (c : Cone3d α)
  | Torus (t : Torus3d α)
deriving DecidableEq, Repr

/-- Embedding of `Shape::from_node_shape` (`shapes.rs`, lines 68-87); the fields not set
explicitly come from `Default::default()`, i.e. zero. -/
def Shape.from_node_shape (shape_type : ShapeType) : Shape α :=
  let dims : α × α := shape_type.dimensions
  match shape_type with
  | ShapeType.Alpha => Shape.Capsule ⟨dims.1, dims.2, 0, 0, 0⟩
  | ShapeType.Beta => Shape.Cylinder ⟨dims.1, dims.2, 0, 0⟩
  | ShapeType.Gamma => Shape.Cone ⟨dims.1, dims.2, 0⟩

/-! ### `src/systems/mesh_generator.rs` -/

inductive MeshVariant where
  | Box
  | Sphere
  | Cylinder
  | Cone
  | Capsule
  | Torus
  | Node (shape_type : ShapeType)
deriving DecidableEq, Repr

/-- The `matches!(variant, MeshVariant::Node(_))` test of `create_mesh`. -/
def MeshVariant.isNode : MeshVariant → Bool
  | MeshVariant.Node _ => true
  | _ => false

/-- Embedding of `MeshVariant::create_shape` (`mesh_generator.rs`, lines 29-62); the
`..Default::default()` spreads fill the remaining fields with zero. -/
def MeshVariant.create_shape (v : MeshVariant) (size : α) : Shape α :=
  match v with
  | MeshVariant.Box => Shape.Box ⟨size, size, size⟩
  | MeshVariant.Sphere => Shape.Sphere ⟨size / 2, 0, 0⟩
  | MeshVariant.Cylinder => Shape.Cylinder ⟨size / 2, size, 0, 0⟩
  | MeshVariant.Cone => Shape.Cone ⟨size / 2, size, 0⟩
  | MeshVariant.Capsule => Shape.Capsule ⟨size / 2, 0, 0, 0, 0⟩
  | MeshVariant.Torus => Shape.Torus ⟨size / 2, size / 8, 0, 0⟩
  | MeshVariant.Node shape_type => Shape.from_node_shape shape_type

/-- Embedding of `create_mesh` (`mesh_generator.rs`, lines 65-97): report a
`ValidationFailed` error and return early when `size <= 0.0` and the variant
is not a `Node`; otherwise build the shape descriptor and hand it to the
engine-side tessellation (`Shape::create_mesh`, which performs no
validation). The successful result is the descriptor whose mesh gets
computed. -/
def create_mesh_checked (v : MeshVariant) (size : α) : Except AppError (Shape α) :=
  if size ≤ 0 ∧ v.isNode = false then
    Except.error (AppError.Component ComponentError.ValidationFailed)
  else
    Except.ok (v.create_shape size)

/-- The dimension fields named by the specification (radius, height, width,
depth, ring_radius) of a shape descriptor; the descriptor has a non-positive
dimension when any of them is `≤ 0`. -/
def hasNonPositiveDim : Shape α → Prop
  | Shape.Box b => b.width ≤ 0 ∨ b.height ≤ 0 ∨ b.depth ≤ 0
  | Shape.Sphere s => s.radius ≤ 0
  | Shape.Capsule c => c.radius ≤ 0 ∨ c.height ≤ 0
  | Shape.Cylinder c => c.radius ≤ 0 ∨ c.height ≤ 0
  | Shape.Cone c => c.radius ≤ 0 ∨ c.height ≤ 0
  | Shape.Torus t => t.radius ≤ 0 ∨ t.ring_radius ≤ 0

/-! ### Concrete bodies used as inputs in the example theorems below -/

/-- A unit-strength North body at the origin. -/
def sampleA : Body ℝ := ⟨0, ⟨0, 0, 0⟩, ⟨1, Polarity.North, 0, 1, 10⟩⟩

/-- A unit-strength South body one unit away from `sampleA`. -/
def sampleB : Body ℝ := ⟨1, ⟨1, 0, 0⟩, ⟨1, Polarity.South, 0, 1, 10⟩⟩

/-- A body three units away from `sampleA`: beyond the combined interaction
radii `1 + 1`. -/
def sampleFar : Body ℝ := ⟨1, ⟨3, 0, 0⟩, ⟨1, Polarity.South, 0, 1, 10⟩⟩

/-- A body with zero (non-positive) strength. -/
def sampleDead : Body ℝ := ⟨2, ⟨0, 0, 1⟩, ⟨0, Polarity.North, 0, 1, 10⟩⟩

/-- A body distinct from `sampleA` but at the same position. -/
def coincidentB : Body ℝ := ⟨1, ⟨0, 0, 0⟩, ⟨1, Polarity.North, 0, 1, 10⟩⟩

/-- A body whose orientation `100` already lies far outside `[0, 2*pi)`. -/
def spinBody : Body ℝ := ⟨0, ⟨0, 0, 0⟩, ⟨1, Polarity.North, 100, 1, 10⟩⟩

end Hyvolex

namespace Hyvolex

variable {α : Type} [LinearOrderedField α]

/-! ### Helper lemmas about the in-place visiting loop -/

theorem visit_length {β : Type} (f : β → β) (cur : List β) (i : ℕ) :
    (visit f cur i).length = cur.length := by
  unfold visit
  cases h : cur[i]? with
  | none => rfl
  | some b => simp

theorem foldl_visit_length {β : Type} (f : β → β) (order : List ℕ)
    (cur : List β) : (order.foldl (visit f) cur).length = cur.length := by
  induction order generalizing cur with
  | nil => rfl
  | cons i rest ih => rw [List.foldl_cons, ih, visit_length]

/-- Invariant of the visiting loop: positions already visited hold the
stepped value, positions still to visit hold the snapshot value; after the
loop every position in range holds the stepped value. -/
theorem foldl_visit_getElem {β : Type} (f : β → β) (l0 : List β) :
    ∀ (order : List ℕ) (cur : List β),
      cur.length = l0.length →
      order.Nodup →
      (∀ j, j < l0.length → j ∉ order → cur[j]? = (l0[j]?).map f) →
      (∀ j ∈ order, cur[j]? = l0[j]?) →
      ∀ j, j < l0.length → (order.foldl (visit f) cur)[j]? = (l0[j]?).map f := by
  intro order
  induction order with
  | nil =>
    intro cur _ _ hout _ j hj
    exact hout j hj (List.not_mem_nil j)
  | cons i rest ih =>
    intro cur hlen hnd hout hin j hj
    have hii : cur[i]? = l0[i]? := hin i (List.mem_cons_self i rest)
    have hndr : rest.Nodup := (List.nodup_cons.mp hnd).2
    have hir : i ∉ rest := (List.nodup_cons.mp hnd).1
    rw [List.foldl_cons]
    cases hcur : cur[i]? with
    | none =>
      have hvisit : visit f cur i = cur := by unfold visit; rw [hcur]
      rw [hvisit]
      refine ih cur hlen hndr ?_ ?_ j hj
      · intro k hk hkr
        by_cases hki : k = i
        · subst hki
          exfalso
          have : l0[k]? = none := by rw [← hii, hcur]
          rw [List.getElem?_eq_none_iff] at this
          omega
        · exact hout k hk (by simp [hki, hkr])
      · intro k hk
        exact hin k (List.mem_cons_of_mem i hk)
    | some b =>
      have hib : i < cur.length := by
        by_contra hcon
        rw [List.getElem?_eq_none_iff.mpr (by omega)] at hcur
        exact Option.noConfusion hcur
      have hvisit : visit f cur i = cur.set i (f b) := by unfold visit; rw [hcur]
      rw [hvisit]
      refine ih (cur.set i (f b)) (by simp [hlen]) hndr ?_ ?_ j hj
      · intro k hk hkr
        by_cases hki : k = i
        · subst hki
          rw [List.getElem?_set_self hib, ← hii, hcur]
          rfl
        · rw [List.getElem?_set_ne (fun h => hki h.symm)]
          exact hout k hk (by simp [hki, hkr])
      · intro k hk
        have hki : k ≠ i := fun h => hir (h ▸ hk)
        rw [List.getElem?_set_ne (fun h => hki h.symm)]
        exact hin k (List.mem_cons_of_mem i hk)

/-- Visiting the store in any order that is a permutation of its index range
yields the two-phase snapshot result. -/
theorem updateInOrder_perm_eq_twoPhase (ops : RealOps α) (eff : Bool) (dt : α)
    (bodies : List (Body α)) (order : List ℕ)
    (h : order.Perm (List.range bodies.length)) :
    updateInOrder ops eff dt bodies order = updateTwoPhase ops eff dt bodies := by
  apply List.ext_getElem?
  intro j
  by_cases hj : j < bodies.length
  · rw [updateTwoPhase, List.getElem?_map, updateInOrder]
    refine foldl_visit_getElem _ bodies order bodies rfl ?_ ?_ ?_ j hj
    · exact (h.nodup_iff).mpr (List.nodup_range _)
    · intro k hk hkout
      exfalso
      exact hkout (h.mem_iff.mpr (List.mem_range.mpr hk))
    · intro k _
      rfl
  · have h1 : (updateInOrder ops eff dt bodies order).length = bodies.length :=
      foldl_visit_length _ order bodies
    have h2 : (updateTwoPhase ops eff dt bodies).length = bodies.length := by
      simp [updateTwoPhase]
    rw [List.getElem?_eq_none_iff.mpr (by omega),
      List.getElem?_eq_none_iff.mpr (by omega)]

theorem update_eq_map (ops : RealOps α) (eff : Bool) (dt : α)
    (bodies : List (Body α)) :
    update_magnetic_fields ops eff dt bodies =
      bodies.map (stepBody ops eff dt bodies) :=
  updateInOrder_perm_eq_twoPhase ops eff dt bodies _ (List.Perm.refl _)

/-! ### Helper lemmas about individual pair contributions -/

theorem Vec3.sub_def (a b : Vec3 α) :
    a - b = ⟨a.x - b.x, a.y - b.y, a.z - b.z⟩ := rfl

theorem Vec3.add_def (a b : Vec3 α) :
    a + b = ⟨a.x + b.x, a.y + b.y, a.z + b.z⟩ := rfl

theorem vec3_sub_eq_zero {a b : Vec3 α} (h : b - a = Vec3.zero) : a = b := by
  obtain ⟨ax, ay, az⟩ := a
  obtain ⟨bx, byy, bz⟩ := b
  rw [Vec3.sub_def] at h
  simp only [Vec3.zero, Vec3.mk.injEq] at h ⊢
  obtain ⟨h1, h2, h3⟩ := h
  exact ⟨by linarith, by linarith, by linarith⟩

theorem advancedBody_translation (tau dt : α) (b : Body α) :
    (advancedBody tau dt b).translation = b.translation := rfl

theorem advancedBody_entity (tau dt : α) (b : Body α) :
    (advancedBody tau dt b).entity = b.entity := rfl

theorem advancedBody_radius (tau dt : α) (b : Body α) :
    (advancedBody tau dt b).field.interaction_radius =
      b.field.interaction_radius := rfl

theorem advancedBody_strength (tau dt : α) (b : Body α) :
    (advancedBody tau dt b).field.strength = b.field.strength := rfl

/-- The function `calculate_base_interaction` fails exactly when a strength is
non-positive. -/
theorem calc_base_error_iff (f g : MagneticField α) :
    calculate_base_interaction f g =
      Except.error (AppError.Component ComponentError.InvalidState) ↔
    (f.strength ≤ 0 ∨ g.strength ≤ 0) := by
  unfold calculate_base_interaction
  by_cases h : f.strength ≤ 0 ∨ g.strength ≤ 0
  · rw [if_pos h]
    simp [h]
  · rw [if_neg h]
    constructor
    · intro heq
      split at heq <;> exact Except.noConfusion heq
    · intro hc
      exact absurd hc h

/-- A pair farther apart than the combined interaction radii contributes
nothing to the accumulator. -/
theorem accumulatePair_far (ops : RealOps α) (self other : Body α)
    (acc : Vec3 α × α)
    (h : ops.sqrt (Vec3.dot (other.translation - self.translation)
          (other.translation - self.translation)) >
        self.field.interaction_radius + other.field.interaction_radius) :
    accumulatePair ops self acc other = acc := by
  simp only [accumulatePair]
  by_cases he : self.entity = other.entity
  · rw [if_pos he]
  · rw [if_neg he, if_pos h]

/-- A pair with a non-positive strength on either side contributes nothing
to the accumulator (the base-interaction error is silently skipped). -/
theorem accumulatePair_bad_strength (ops : RealOps α) (self other : Body α)
    (acc : Vec3 α × α)
    (h : self.field.strength ≤ 0 ∨ other.field.strength ≤ 0) :
    accumulatePair ops self acc other = acc := by
  simp only [accumulatePair]
  by_cases he : self.entity = other.entity
  · rw [if_pos he]
  · rw [if_neg he]
    by_cases hd : ops.sqrt (Vec3.dot (other.translation - self.translation)
          (other.translation - self.translation)) >
        self.field.interaction_radius + other.field.interaction_radius
    · rw [if_pos hd]
    · rw [if_neg hd, (calc_base_error_iff self.field other.field).mpr h]

/-- A self pair contributes nothing to the accumulator. -/
theorem accumulatePair_self (ops : RealOps α) (self other : Body α)
    (acc : Vec3 α × α) (h : self.entity = other.entity) :
    accumulatePair ops self acc other = acc := by
  simp only [accumulatePair]
  rw [if_pos h]

/-- Removing from the snapshot a body whose pair with `self` is always
skipped does not change the accumulated force and influence. -/
theorem forceAndInfluence_erase (ops : RealOps α) (self other : Body α)
    (l1 l2 : List (Body α))
    (hskip : ∀ acc, accumulatePair ops self acc other = acc) :
    forceAndInfluence ops (l1 ++ other :: l2) self =
      forceAndInfluence ops (l1 ++ l2) self := by
  unfold forceAndInfluence
  rw [List.foldl_append, List.foldl_append, List.foldl_cons, hskip]

/-- Removing from the snapshot a body whose pair with `b` is always skipped
does not change the update of `b`. -/
theorem stepBody_erase (ops : RealOps α) (eff : Bool) (dt : α)
    (b other : Body α) (l1 l2 : List (Body α))
    (hskip : ∀ acc,
      accumulatePair ops (advancedBody ops.tau dt b) acc other = acc) :
    stepBody ops eff dt (l1 ++ other :: l2) b =
      stepBody ops eff dt (l1 ++ l2) b := by
  unfold stepBody
  cases eff with
  | false => simp
  | true =>
    simp only [if_true]
    rw [forceAndInfluence_erase ops _ other l1 l2 hskip]

/-- With a singleton snapshot holding the body itself, the force loop
accumulates nothing. -/
theorem forceAndInfluence_self_singleton (ops : RealOps α) (b b1 : Body α)
    (h : b1.entity = b.entity) :
    forceAndInfluence ops [b] b1 = (Vec3.zero, 0) := by
  unfold forceAndInfluence
  rw [List.foldl_cons, accumulatePair_self ops b1 b _ h]
  rfl

/-- With a singleton snapshot, the stepped orientation is the advanced
orientation with zero influence, damped by `0.95`. -/
theorem stepBody_singleton_orientation (ops : RealOps α) (dt : α) (b : Body α) :
    (stepBody ops true dt [b] b).field.orientation =
      ((advancedBody ops.tau dt b).field.orientation + 0 * dt) * (95 / 100) := by
  have hfi := forceAndInfluence_self_singleton ops b (advancedBody ops.tau dt b) rfl
  simp [stepBody, hfi]

/-- Length of a `flatMap` whose pieces all have the same length. -/
theorem flatMap_length_const {β γ : Type} (l : List β) (f : β → List γ) (k : ℕ)
    (h : ∀ b ∈ l, (f b).length = k) :
    (l.flatMap f).length = l.length * k := by
  induction l with
  | nil => simp
  | cons a t ih =>
    rw [List.flatMap_cons, List.length_append, h a (List.mem_cons_self a t),
      ih (fun b hb => h b (List.mem_cons_of_mem a hb)), List.length_cons]
    ring

theorem sphereRingVertices_length (sin cos : α → α) (pi radius : α)
    (segments : ℕ) (phi : α) :
    (sphereRingVertices sin cos pi radius segments phi).length = segments + 1 := by
  unfold sphereRingVertices
  rw [List.length_map, List.length_range]

theorem sphereRingIndices_length (segments ring : ℕ) :
    (sphereRingIndices segments ring).length = segments * 6 := by
  unfold sphereRingIndices
  refine Eq.trans (flatMap_length_const _ _ 6 ?_) ?_
  · intro segment _
    rfl
  · rw [List.length_range]

/-- The per-vertex normal: the guard `length > 0` coincides with
`length ≠ 0` because a square root is never negative. -/
theorem sphere_normal_pointwise (v : Vec3 ℝ) :
    (if Real.sqrt (v.x * v.x + v.y * v.y + v.z * v.z) > 0 then
      (⟨v.x / Real.sqrt (v.x * v.x + v.y * v.y + v.z * v.z),
        v.y / Real.sqrt (v.x * v.x + v.y * v.y + v.z * v.z),
        v.z / Real.sqrt (v.x * v.x + v.y * v.y + v.z * v.z)⟩ : Vec3 ℝ)
    else ⟨0, 1, 0⟩) =
    (if Real.sqrt (v.x * v.x + v.y * v.y + v.z * v.z) ≠ 0 then
      (⟨v.x / Real.sqrt (v.x * v.x + v.y * v.y + v.z * v.z),
        v.y / Real.sqrt (v.x * v.x + v.y * v.y + v.z * v.z),
        v.z / Real.sqrt (v.x * v.x + v.y * v.y + v.z * v.z)⟩ : Vec3 ℝ)
    else ⟨0, 1, 0⟩) := by
  by_cases hz : Real.sqrt (v.x * v.x + v.y * v.y + v.z * v.z) = 0
  · rw [if_neg (by rw [hz]; exact lt_irrefl 0), if_neg (fun hn => hn hz)]
  · have hpos : Real.sqrt (v.x * v.x + v.y * v.y + v.z * v.z) > 0 :=
      lt_of_le_of_ne (Real.sqrt_nonneg _) (Ne.symm hz)
    rw [if_pos hpos, if_pos hz]

/-! ### Claim theorems -/

/-- C1. For bodies with positive strengths, `calculate_base_interaction`
returns the product of the strengths, negated (negative, repulsive) when the
polarities coincide and positive (attractive) when they differ. -/
theorem base_interaction_sign_product (A B : MagneticField ℝ)
    (hA : 0 < A.strength) (hB : 0 < B.strength) :
    calculate_base_interaction A B =
      Except.ok (if A.polarity = B.polarity
        then -(A.strength * B.strength) else A.strength * B.strength) ∧
    -(A.strength * B.strength) < 0 ∧ 0 < A.strength * B.strength := by
  have hprod : 0 < A.strength * B.strength := mul_pos hA hB
  refine ⟨?_, by linarith, hprod⟩
  unfold calculate_base_interaction
  rw [if_neg]
  · split <;> simp
  · push_neg
    exact ⟨hA, hB⟩

/-- Witness for C1 at the example of the spec: strengths 2 and 3 give `-6` for
equal polarities and `+6` for opposite polarities. -/
theorem base_interaction_sign_product_example :
    calculate_base_interaction
        (⟨2, Polarity.North, 0, 2, 10⟩ : MagneticField ℝ)
        (⟨3, Polarity.North, 0, 2, 10⟩ : MagneticField ℝ) = Except.ok (-6) ∧
    calculate_base_interaction
        (⟨2, Polarity.North, 0, 2, 10⟩ : MagneticField ℝ)
        (⟨3, Polarity.South, 0, 2, 10⟩ : MagneticField ℝ) = Except.ok 6 := by
  have h1 := base_interaction_sign_product
    (⟨2, Polarity.North, 0, 2, 10⟩ : MagneticField ℝ)
    (⟨3, Polarity.North, 0, 2, 10⟩ : MagneticField ℝ) (by norm_num) (by norm_num)
  have h2 := base_interaction_sign_product
    (⟨2, Polarity.North, 0, 2, 10⟩ : MagneticField ℝ)
    (⟨3, Polarity.South, 0, 2, 10⟩ : MagneticField ℝ) (by norm_num) (by norm_num)
  norm_num at h1 h2
  rw [if_neg (by decide)] at h2
  exact ⟨h1, h2⟩

/-- C3. A body `other` farther from `b` than the sum of their interaction
radii contributes nothing in that tick: the pair is skipped, and both the
accumulated `(total_force, orientation_influence)` and the whole update of `b`
are the same as if `other` were absent from the snapshot. -/
theorem out_of_range_pair_no_contribution (eff : Bool) (dt : ℝ)
    (b other : Body ℝ) (acc : Vec3 ℝ × ℝ) (l1 l2 : List (Body ℝ))
    (h : Real.sqrt (Vec3.dot (other.translation - b.translation)
          (other.translation - b.translation)) >
        b.field.interaction_radius + other.field.interaction_radius) :
    accumulatePair ⟨Real.sqrt, Real.cos, Real.sin, 2 * Real.pi⟩ b acc other = acc ∧
    forceAndInfluence ⟨Real.sqrt, Real.cos, Real.sin, 2 * Real.pi⟩
        (l1 ++ other :: l2) b =
      forceAndInfluence ⟨Real.sqrt, Real.cos, Real.sin, 2 * Real.pi⟩ (l1 ++ l2) b ∧
    stepBody ⟨Real.sqrt, Real.cos, Real.sin, 2 * Real.pi⟩ eff dt
        (l1 ++ other :: l2) b =
      stepBody ⟨Real.sqrt, Real.cos, Real.sin, 2 * Real.pi⟩ eff dt (l1 ++ l2) b := by
  refine ⟨accumulatePair_far _ b other acc h, ?_, ?_⟩
  · exact forceAndInfluence_erase _ b other l1 l2
      (fun a => accumulatePair_far _ b other a h)
  · exact stepBody_erase _ eff dt b other l1 l2
      (fun a => accumulatePair_far _ _ other a h)

/-- Witness for C3: `sampleFar` sits at distance 3 from `sampleA`, beyond
the combined radii `1 + 1 = 2`, and contributes nothing. -/
theorem out_of_range_pair_no_contribution_example :
    (Real.sqrt (Vec3.dot (sampleFar.translation - sampleA.translation)
          (sampleFar.translation - sampleA.translation)) >
        sampleA.field.interaction_radius + sampleFar.field.interaction_radius) ∧
    accumulatePair ⟨Real.sqrt, Real.cos, Real.sin, 2 * Real.pi⟩ sampleA
        (Vec3.zero, 0) sampleFar = (Vec3.zero, 0) ∧
    stepBody ⟨Real.sqrt, Real.cos, Real.sin, 2 * Real.pi⟩ true 1
        ([] ++ sampleFar :: []) sampleA =
      stepBody ⟨Real.sqrt, Real.cos, Real.sin, 2 * Real.pi⟩ true 1 ([] ++ []) sampleA := by
  have hdist : Real.sqrt (Vec3.dot (sampleFar.translation - sampleA.translation)
        (sampleFar.translation - sampleA.translation)) >
      sampleA.field.interaction_radius + sampleFar.field.interaction_radius := by
    have h9 : Vec3.dot (sampleFar.translation - sampleA.translation)
        (sampleFar.translation - sampleA.translation) = 9 := by
      simp [sampleA, sampleFar, Vec3.dot, Vec3.sub, HSub.hSub, Sub.sub]
      norm_num
    rw [h9]
    have : Real.sqrt 9 = 3 := by
      rw [show (9 : ℝ) = 3 ^ 2 by norm_num, Real.sqrt_sq]
      norm_num
    rw [this]
    show (3 : ℝ) > 1 + 1
    norm_num
  have h := out_of_range_pair_no_contribution true 1 sampleA sampleFar
    (Vec3.zero, 0) [] [] hdist
  exact ⟨hdist, h.1, h.2.2⟩

/-- C7. A pair with a non-positive strength on either side is excluded from
force calculation: `calculate_base_interaction` returns its error exactly
under that condition, the pair contributes nothing to the accumulator, and
the rest of the tick proceeds as if the invalid counterpart were absent. -/
theorem nonpositive_strength_pair_skipped (eff : Bool) (dt : ℝ)
    (b other : Body ℝ) (acc : Vec3 ℝ × ℝ) (l1 l2 : List (Body ℝ))
    (h : b.field.strength ≤ 0 ∨ other.field.strength ≤ 0) :
    (calculate_base_interaction b.field other.field =
        Except.error (AppError.Component ComponentError.InvalidState) ↔
      (b.field.strength ≤ 0 ∨ other.field.strength ≤ 0)) ∧
    accumulatePair ⟨Real.sqrt, Real.cos, Real.sin, 2 * Real.pi⟩ b acc other = acc ∧
    stepBody ⟨Real.sqrt, Real.cos, Real.sin, 2 * Real.pi⟩ eff dt
        (l1 ++ other :: l2) b =
      stepBody ⟨Real.sqrt, Real.cos, Real.sin, 2 * Real.pi⟩ eff dt (l1 ++ l2) b := by
  refine ⟨calc_base_error_iff b.field other.field,
    accumulatePair_bad_strength _ b other acc h, ?_⟩
  refine stepBody_erase _ eff dt b other l1 l2 (fun a => ?_)
  refine accumulatePair_bad_strength _ _ other a ?_
  rw [advancedBody_strength]
  exact h

/-- Witness for C7: `sampleDead` has strength `0`; its pair with `sampleA`
is skipped while the tick goes on. -/
theorem nonpositive_strength_pair_skipped_example :
    ((sampleDead.field.strength ≤ 0 ∨ sampleA.field.strength ≤ 0) ∧
      calculate_base_interaction sampleDead.field sampleA.field =
        Except.error (AppError.Component ComponentError.InvalidState)) ∧
    accumulatePair ⟨Real.sqrt, Real.cos, Real.sin, 2 * Real.pi⟩ sampleDead
      (Vec3.zero, 0) sampleA = (Vec3.zero, 0) := by
  have hcond : sampleDead.field.strength ≤ 0 ∨ sampleA.field.strength ≤ 0 := by
    left
    show (0 : ℝ) ≤ 0
    norm_num
  have h := nonpositive_strength_pair_skipped true 1 sampleDead sampleA
    (Vec3.zero, 0) [] [] hcond
  exact ⟨⟨hcond, h.1.mpr hcond⟩, h.2.1⟩

/-- C8. Every position read while accumulating the force on a body comes
from the start-of-tick snapshot, so the outcome of the tick does not depend
on the order
in which the bodies are visited: visiting in any permutation of the index
range, and in particular the in-place store-order loop of the source, equals the
two-phase snapshot-then-apply pass. -/
theorem update_snapshot_two_phase (ops : RealOps ℝ) (eff : Bool) (dt : ℝ)
    (bodies : List (Body ℝ)) (order : List ℕ)
    (h : order.Perm (List.range bodies.length)) :
    updateInOrder ops eff dt bodies order = updateTwoPhase ops eff dt bodies ∧
    update_magnetic_fields ops eff dt bodies =
      bodies.map (stepBody ops eff dt bodies) :=
  ⟨updateInOrder_perm_eq_twoPhase ops eff dt bodies order h,
   update_eq_map ops eff dt bodies⟩

/-- Witness for C8: two bodies visited in reversed order give the two-phase
result. -/
theorem update_snapshot_two_phase_example :
    ([1, 0] : List ℕ).Perm (List.range ([sampleA, sampleB].length)) ∧
    (updateInOrder ⟨Real.sqrt, Real.cos, Real.sin, 2 * Real.pi⟩ true 1
        [sampleA, sampleB] [1, 0] =
      updateTwoPhase ⟨Real.sqrt, Real.cos, Real.sin, 2 * Real.pi⟩ true 1
        [sampleA, sampleB] ∧
    update_magnetic_fields ⟨Real.sqrt, Real.cos, Real.sin, 2 * Real.pi⟩ true 1
        [sampleA, sampleB] =
      [sampleA, sampleB].map
        (stepBody ⟨Real.sqrt, Real.cos, Real.sin, 2 * Real.pi⟩ true 1
          [sampleA, sampleB])) := by
  have hperm : ([1, 0] : List ℕ).Perm (List.range ([sampleA, sampleB].length)) := by
    show ([1, 0] : List ℕ).Perm (List.range 2)
    decide
  exact ⟨hperm, update_snapshot_two_phase _ true 1 [sampleA, sampleB] [1, 0] hperm⟩

/-- C9 (amended). Every pair that reaches the `normalize` call has distinct
entities — a body never exerts force on itself, self pairs being skipped —
but skipping self pairs alone does not rule out a zero-length direction:
that additionally needs the two positions to differ, in which case the
normalized direction vector is nonzero. -/
theorem considered_pairs_distinct_entities (b other : Body ℝ)
    (h : reachesNormalize ⟨Real.sqrt, Real.cos, Real.sin, 2 * Real.pi⟩ b other) :
    b.entity ≠ other.entity ∧
    (b.translation ≠ other.translation →
      other.translation - b.translation ≠ Vec3.zero) ∧
    ∀ (c : Body ℝ) (acc : Vec3 ℝ × ℝ),
      accumulatePair ⟨Real.sqrt, Real.cos, Real.sin, 2 * Real.pi⟩ c acc c = acc := by
  refine ⟨h.1, ?_, fun c acc => accumulatePair_self _ c c acc rfl⟩
  intro hne hzero
  exact hne (vec3_sub_eq_zero hzero)

/-- Witness for C9: `sampleA` and `sampleB` sit one unit apart, inside the
combined radii, with positive strengths: their pair reaches `normalize` and
the direction is nonzero. -/
theorem considered_pairs_distinct_entities_example :
    reachesNormalize ⟨Real.sqrt, Real.cos, Real.sin, 2 * Real.pi⟩ sampleA sampleB ∧
    sampleA.entity ≠ sampleB.entity ∧
    (sampleA.translation ≠ sampleB.translation →
      sampleB.translation - sampleA.translation ≠ Vec3.zero) := by
  have hreach : reachesNormalize ⟨Real.sqrt, Real.cos, Real.sin, 2 * Real.pi⟩
      sampleA sampleB := by
    refine ⟨by simp [sampleA, sampleB], ?_, ?_⟩
    · have h1 : Vec3.dot (sampleB.translation - sampleA.translation)
          (sampleB.translation - sampleA.translation) = 1 := by
        simp [sampleA, sampleB, Vec3.dot, Vec3.sub_def]
      show ¬ (Real.sqrt (Vec3.dot (sampleB.translation - sampleA.translation)
          (sampleB.translation - sampleA.translation)) >
        sampleA.field.interaction_radius + sampleB.field.interaction_radius)
      rw [h1, Real.sqrt_one]
      show ¬ ((1 : ℝ) > 1 + 1)
      norm_num
    · refine ⟨1 * 1, ?_⟩
      norm_num [calculate_base_interaction, sampleA, sampleB]
      decide
  have h := considered_pairs_distinct_entities sampleA sampleB hreach
  exact ⟨hreach, h.1, h.2.1⟩

/-- C9 counterexample: `sampleA` and `coincidentB` are distinct entities at
the same position; their pair passes every guard and reaches the
`normalize` call with a zero-length direction, so skipping self pairs does
not guard the degenerate case. -/
theorem coincident_distinct_bodies_reach_normalize :
    reachesNormalize ⟨Real.sqrt, Real.cos, Real.sin, 2 * Real.pi⟩
      sampleA coincidentB ∧
    coincidentB.translation - sampleA.translation = Vec3.zero := by
  have hzero : coincidentB.translation - sampleA.translation = Vec3.zero := by
    simp [sampleA, coincidentB, Vec3.sub_def, Vec3.zero]
  refine ⟨⟨by simp [sampleA, coincidentB], ?_, ?_⟩, hzero⟩
  · show ¬ (Real.sqrt (Vec3.dot (coincidentB.translation - sampleA.translation)
        (coincidentB.translation - sampleA.translation)) >
      sampleA.field.interaction_radius + coincidentB.field.interaction_radius)
    rw [hzero]
    have h0 : Vec3.dot (Vec3.zero : Vec3 ℝ) Vec3.zero = 0 := by
      simp [Vec3.dot, Vec3.zero]
    rw [h0, Real.sqrt_zero]
    show ¬ ((0 : ℝ) > 1 + 1)
    norm_num
  · exact ⟨-(1 * 1), by norm_num [calculate_base_interaction, sampleA, coincidentB]⟩

/-- C10. With the `MagneticEffects` resource absent, the update leaves every
translation unchanged and still advances every orientation by
`strength * dt`, subtracting `2 * pi` at most once when the sum exceeds it. -/
theorem effects_absent_orientation_only (dt : ℝ) (bodies : List (Body ℝ))
    (i : ℕ) :
    ((update_magnetic_fields ⟨Real.sqrt, Real.cos, Real.sin, 2 * Real.pi⟩
        false dt bodies)[i]?.map (fun b => b.translation) =
      bodies[i]?.map (fun b => b.translation)) ∧
    (update_magnetic_fields ⟨Real.sqrt, Real.cos, Real.sin, 2 * Real.pi⟩
        false dt bodies)[i]? =
      bodies[i]?.map (fun b =>
        { b with field := { b.field with orientation :=
            if b.field.orientation + b.field.strength * dt > 2 * Real.pi
            then b.field.orientation + b.field.strength * dt - 2 * Real.pi
            else b.field.orientation + b.field.strength * dt } }) := by
  rw [update_eq_map, List.getElem?_map]
  cases bodies[i]? with
  | none => exact ⟨rfl, rfl⟩
  | some b =>
    constructor
    · rfl
    · show some (stepBody _ false dt bodies b) = some _
      unfold stepBody advancedBody
      simp

/-- C2 (amended). With the effects resource present, the resulting
orientation of a body is `(advanced + influence * dt) * 0.95`, where `advanced` adds
`strength * dt` and subtracts `2 * pi` at most once; no wrap into
`[0, 2 * pi)` is applied between adding the influence and damping. -/
theorem orientation_damped_after_advance (dt : ℝ) (bodies : List (Body ℝ))
    (i : ℕ) :
    (update_magnetic_fields ⟨Real.sqrt, Real.cos, Real.sin, 2 * Real.pi⟩
        true dt bodies)[i]?.map (fun b => b.field.orientation) =
      bodies[i]?.map (fun b =>
        ((advancedBody (2 * Real.pi) dt b).field.orientation +
            (forceAndInfluence ⟨Real.sqrt, Real.cos, Real.sin, 2 * Real.pi⟩
              bodies (advancedBody (2 * Real.pi) dt b)).2 * dt) * (95 / 100)) := by
  rw [update_eq_map, List.getElem?_map]
  cases bodies[i]? with
  | none => rfl
  | some b =>
    show some ((stepBody _ true dt bodies b).field.orientation) = some _
    simp [stepBody]

/-- C2 counterexample: starting from orientation `100`, one update with the
effects resource present leaves the orientation at
`(101 - 2 * pi) * 0.95 ≈ 90`, far outside `[0, 2 * pi)` — the claimed wrap
into `[0, 2 * pi)` before damping does not happen in the code. -/
theorem orientation_wrap_claim_refuted :
    ∃ b : Body ℝ,
      (update_magnetic_fields ⟨Real.sqrt, Real.cos, Real.sin, 2 * Real.pi⟩
          true 1 [spinBody])[0]? = some b ∧
      ¬ (0 ≤ b.field.orientation ∧ b.field.orientation < 2 * Real.pi) := by
  have hpi1 : Real.pi < 3.15 := Real.pi_lt_d2
  have hpi2 : 3 < Real.pi := Real.pi_gt_three
  have hcond : spinBody.field.orientation + spinBody.field.strength * 1 >
      2 * Real.pi := by
    show (100 : ℝ) + 1 * 1 > 2 * Real.pi
    nlinarith
  have hadv : (advancedBody (2 * Real.pi) 1 spinBody).field.orientation =
      101 - 2 * Real.pi := by
    simp only [advancedBody]
    rw [if_pos hcond]
    show (100 : ℝ) + 1 * 1 - 2 * Real.pi = 101 - 2 * Real.pi
    norm_num
  refine ⟨stepBody ⟨Real.sqrt, Real.cos, Real.sin, 2 * Real.pi⟩ true 1
    [spinBody] spinBody, ?_, ?_⟩
  · rw [update_eq_map]
    rfl
  · have hso := stepBody_singleton_orientation
      (⟨Real.sqrt, Real.cos, Real.sin, 2 * Real.pi⟩ : RealOps ℝ) 1 spinBody
    rw [show (⟨Real.sqrt, Real.cos, Real.sin, 2 * Real.pi⟩ : RealOps ℝ).tau =
      2 * Real.pi from rfl, hadv] at hso
    rintro ⟨_, hlt⟩
    rw [hso] at hlt
    nlinarith

/-- C4. The 16 x 16 sphere tessellation yields `17 * 17 = 289` vertices and
`16 * 16 * 6 = 1536` index entries, every index referencing a valid vertex
position (`< 289`), for any positive radius. -/
theorem sphere_mesh_counts (radius : ℝ) (h : 0 < radius) :
    (generate_sphere_vertices Real.sin Real.cos Real.pi radius 16 16).length = 289 ∧
    (generate_sphere_indices 16 16).length = 1536 ∧
    ∀ i ∈ generate_sphere_indices 16 16, i < 289 := by
  refine ⟨?_, ?_, ?_⟩
  · unfold generate_sphere_vertices
    refine Eq.trans (flatMap_length_const _ _ 17 ?_) ?_
    · intro ring _
      exact sphereRingVertices_length Real.sin Real.cos Real.pi radius 16 _
    · rw [List.length_range]
  · unfold generate_sphere_indices
    refine Eq.trans (flatMap_length_const _ _ 96 ?_) ?_
    · intro ring _
      exact sphereRingIndices_length 16 ring
    · rw [List.length_range]
  · intro i hi
    unfold generate_sphere_indices sphereRingIndices at hi
    rw [List.mem_flatMap] at hi
    obtain ⟨ring, hring, hi⟩ := hi
    rw [List.mem_flatMap] at hi
    obtain ⟨segment, hseg, hi⟩ := hi
    rw [List.mem_range] at hring hseg
    simp only [List.mem_cons, List.not_mem_nil, or_false] at hi
    rcases hi with h | h | h | h | h | h <;> omega

/-- Witness for C4 at radius 1. -/
theorem sphere_mesh_counts_unit :
    (0 : ℝ) < 1 ∧
    ((generate_sphere_vertices Real.sin Real.cos Real.pi 1 16 16).length = 289 ∧
      (generate_sphere_indices 16 16).length = 1536 ∧
      ∀ i ∈ generate_sphere_indices 16 16, i < 289) :=
  ⟨by norm_num, sphere_mesh_counts 1 (by norm_num)⟩

/-- C5. The normal generator maps each vertex, in order, to the vertex
divided componentwise by its Euclidean length when that length is nonzero,
and to `(0, 1, 0)` when it is zero; the output is positionally parallel to
the input. -/
theorem sphere_normals_normalize_or_default (vs : List (Vec3 ℝ)) :
    (generate_sphere_normals Real.sqrt vs).length = vs.length ∧
    ∀ i : ℕ, (generate_sphere_normals Real.sqrt vs)[i]? =
      (vs[i]?).map (fun v =>
        if Real.sqrt (v.x * v.x + v.y * v.y + v.z * v.z) ≠ 0 then
          ⟨v.x / Real.sqrt (v.x * v.x + v.y * v.y + v.z * v.z),
           v.y / Real.sqrt (v.x * v.x + v.y * v.y + v.z * v.z),
           v.z / Real.sqrt (v.x * v.x + v.y * v.y + v.z * v.z)⟩
        else ⟨0, 1, 0⟩) := by
  constructor
  · simp [generate_sphere_normals]
  · intro i
    rw [generate_sphere_normals, List.getElem?_map]
    cases vs[i]? with
    | none => rfl
    | some v =>
      show some _ = some _
      congr 1
      exact sphere_normal_pointwise v

/-- C6 (amended). Mesh building validates its scalar argument, not every
dimension of the built descriptor: `create_mesh` rejects `size ≤ 0` for
non-`Node` variants and the helix node mesh rejects `radius ≤ 0`, each with
a `ValidationFailed` error before any buffer is produced; and for non-`Node`
variants the built descriptor carries a non-positive listed dimension
exactly when `size ≤ 0` or the variant is `Capsule`, whose `height` stays at
the `Default` value `0`. -/
theorem mesh_validation_on_size_and_radius (v : MeshVariant) (size radius : ℝ)
    (h1 : v.isNode = false) (h2 : size ≤ 0) (h3 : radius ≤ 0) :
    create_mesh_checked v size =
      Except.error (AppError.Component ComponentError.ValidationFailed) ∧
    create_node_mesh_buffers Real.sin Real.cos Real.pi Real.sqrt radius =
      Except.error (AppError.Component ComponentError.ValidationFailed) ∧
    ∀ (w : MeshVariant) (sz : ℝ), w.isNode = false →
      (hasNonPositiveDim (w.create_shape sz) ↔
        (sz ≤ 0 ∨ w = MeshVariant.Capsule)) := by
  refine ⟨?_, ?_, ?_⟩
  · unfold create_mesh_checked
    rw [if_pos ⟨h2, h1⟩]
  · unfold create_node_mesh_buffers
    rw [if_pos h3]
  · intro w sz hw
    cases w with
    | Node st => simp [MeshVariant.isNode] at hw
    | Box =>
      simp only [MeshVariant.create_shape, hasNonPositiveDim]
      constructor
      · rintro (h | h | h) <;> exact Or.inl h
      · rintro (h | h)
        · exact Or.inl h
        · exact MeshVariant.noConfusion h
    | Sphere =>
      simp only [MeshVariant.create_shape, hasNonPositiveDim]
      constructor
      · intro h
        left
        linarith
      · rintro (h | h)
        · linarith
        · exact MeshVariant.noConfusion h
    | Cylinder =>
      simp only [MeshVariant.create_shape, hasNonPositiveDim]
      constructor
      · rintro (h | h)
        · left
          linarith
        · exact Or.inl h
      · rintro (h | h)
        · exact Or.inr h
        · exact MeshVariant.noConfusion h
    | Cone =>
      simp only [MeshVariant.create_shape, hasNonPositiveDim]
      constructor
      · rintro (h | h)
        · left
          linarith
        · exact Or.inl h
      · rintro (h | h)
        · exact Or.inr h
        · exact MeshVariant.noConfusion h
    | Capsule =>
      simp [MeshVariant.create_shape, hasNonPositiveDim]
    | Torus =>
      simp only [MeshVariant.create_shape, hasNonPositiveDim]
      constructor
      · rintro (h | h) <;> (left ; linarith)
      · rintro (h | h)
        · left
          linarith
        · exact MeshVariant.noConfusion h

/-- Witness for C6 (amended) at the `Box` variant with `size = radius = -1`. -/
theorem mesh_validation_on_size_and_radius_example :
    (MeshVariant.Box.isNode = false ∧ (-1 : ℝ) ≤ 0) ∧
    (create_mesh_checked MeshVariant.Box (-1 : ℝ) =
        Except.error (AppError.Component ComponentError.ValidationFailed) ∧
      create_node_mesh_buffers Real.sin Real.cos Real.pi Real.sqrt (-1 : ℝ) =
        Except.error (AppError.Component ComponentError.ValidationFailed) ∧
      ∀ (w : MeshVariant) (sz : ℝ), w.isNode = false →
        (hasNonPositiveDim (w.create_shape sz) ↔
          (sz ≤ 0 ∨ w = MeshVariant.Capsule))) :=
  ⟨⟨rfl, by norm_num⟩,
    mesh_validation_on_size_and_radius MeshVariant.Box (-1) (-1) rfl
      (by norm_num) (by norm_num)⟩

/-- C6 counterexample: the `Capsule` variant with positive size builds a
descriptor whose `height` is the `Default` value `0` — a non-positive
dimension — yet `create_mesh` accepts it with no `ValidationError` and hands
it to mesh computation. -/
theorem capsule_zero_height_not_rejected :
    hasNonPositiveDim (MeshVariant.create_shape MeshVariant.Capsule (1 : ℝ)) ∧
    create_mesh_checked MeshVariant.Capsule (1 : ℝ) =
      Except.ok (Shape.Capsule ⟨1 / 2, 0, 0, 0, 0⟩) := by
  constructor
  · show (1 : ℝ) / 2 ≤ 0 ∨ (0 : ℝ) ≤ 0
    exact Or.inr le_rfl
  · unfold create_mesh_checked
    rw [if_neg]
    · rfl
    · rintro ⟨ha, _⟩
      norm_num at ha

end Hyvolex
